import Mathlib

/-
Verification of the exifutil repository: a shallow embedding of its
timestamp parsing, pattern compilation, destination planning, worker
dispatch and session protocol logic, together with theorems settling
the specification claims.

Machine integers do not occur in the modelled code paths; all numbers
are Nat/Int. Fallible Go operations (JSON unmarshalling, file stat,
slice indexing) are modelled with Option/Except parameters so that the
pure decision logic of the program is captured exactly.
-/

namespace Exifutil

/-! ## Characters and digit parsing -/

/-- Numeric value of a decimal digit character. -/
def digitVal (c : Char) : Nat := c.toNat - 48

/-- Parse exactly `n` decimal digits from the front of the list,
accumulating their value into `acc`; models Go `time` package fixed-width
number scanning used by layouts such as `2006`, `01`, `02`, `15`, `04`, `05`. -/
def parseFixedNat : Nat → Nat → List Char → Option (Nat × List Char)
  | 0, acc, l => some (acc, l)
  | _ + 1, _, [] => none
  | n + 1, acc, c :: rest =>
    if c.isDigit then parseFixedNat n (acc * 10 + digitVal c) rest else none

/-- Require a specific literal character next; models layout literals. -/
def expectChar (c : Char) : List Char → Option (List Char)
  | [] => none
  | d :: rest => if d = c then some rest else none

/-- Gregorian leap-year rule, as used by Go `time` date validation. -/
def isLeapYear (y : Nat) : Bool := y % 4 == 0 && (y % 100 != 0 || y % 400 == 0)

/-- Number of days in a month, as used by Go `time` date validation. -/
def daysInMonth (y m : Nat) : Nat :=
  if m = 2 then (if isLeapYear y then 29 else 28)
  else if m = 4 ∨ m = 6 ∨ m = 9 ∨ m = 11 then 30 else 31

/-! ## Time values

Go `time.Time` values produced by the program's `ParseInLocation` calls
are wall-clock fields plus a fixed zone offset; we record exactly that.
Sub-second precision in this program is only ever milliseconds. -/

/-- A parsed timestamp: wall-clock fields plus zone offset in minutes. -/
structure GoTime where
  year : Nat
  month : Nat
  day : Nat
  hour : Nat
  minute : Nat
  second : Nat
  millis : Nat
  offsetMin : Int
deriving DecidableEq, BEq, Repr

/-- Go's zero `time.Time`: January 1, year 1, 00:00:00 UTC. -/
def zeroGoTime : GoTime := ⟨1, 1, 1, 0, 0, 0, 0, 0⟩

/-- Days from 0001-01-01 to the given civil date in the proleptic
Gregorian calendar, as Go's absolute-time arithmetic computes it. -/
def daysSinceEpoch (y m d : Nat) : Nat :=
  let py := y - 1
  let leapDays := py / 4 - py / 100 + py / 400
  let daysBefore :=
    match m with
    | 1 => 0 | 2 => 31 | 3 => 59 | 4 => 90 | 5 => 120 | 6 => 151
    | 7 => 181 | 8 => 212 | 9 => 243 | 10 => 273 | 11 => 304 | _ => 334
  let leapAdj := if 3 ≤ m ∧ isLeapYear y then 1 else 0
  365 * py + leapDays + daysBefore + leapAdj + (d - 1)

/-- The absolute instant of a `GoTime` in milliseconds since
0001-01-01 00:00:00 UTC: wall-clock minutes shifted by the zone offset. -/
def GoTime.instantMillis (t : GoTime) : Int :=
  (((daysSinceEpoch t.year t.month t.day * 24 + t.hour) * 60 + t.minute : Int)
      - t.offsetMin) * 60000
    + t.second * 1000 + t.millis

/-- Models Go `time.Time.IsZero`: the absolute instant equals the zero
time's instant (Go compares instants, not wall-clock fields). -/
def GoTime.isZero (t : GoTime) : Bool :=
  t.instantMillis == zeroGoTime.instantMillis

/-- One-second increment of a wall-clock time with full carry through
minute, hour, day (per month length and leap year), month and year;
the zone offset is unchanged, matching Go `Add` on a fixed zone. -/
def addOneSecond (t : GoTime) : GoTime :=
  if t.second + 1 < 60 then { t with second := t.second + 1 }
  else if t.minute + 1 < 60 then { t with second := 0, minute := t.minute + 1 }
  else if t.hour + 1 < 24 then { t with second := 0, minute := 0, hour := t.hour + 1 }
  else if t.day + 1 ≤ daysInMonth t.year t.month then
    { t with second := 0, minute := 0, hour := 0, day := t.day + 1 }
  else if t.month + 1 ≤ 12 then
    { t with second := 0, minute := 0, hour := 0, day := 1, month := t.month + 1 }
  else
    { t with second := 0, minute := 0, hour := 0, day := 1, month := 1, year := t.year + 1 }

/-- Iterated one-second increment. -/
def addSecondsN : Nat → GoTime → GoTime
  | 0, t => t
  | n + 1, t => addSecondsN n (addOneSecond t)

/-- Models Go `t.Add(k * time.Millisecond)` for the program's jitter
addition: the milliseconds accumulate and every full second carries into
the wall clock (the instant moves by exactly `k` milliseconds). -/
def addMillis (t : GoTime) (k : Nat) : GoTime :=
  addSecondsN ((t.millis + k) / 1000) { t with millis := (t.millis + k) % 1000 }

/-! ## Timestamp format parsers

The program uses four fixed Go layouts:
`"2006:01:02 15:04:05.000-07:00"` (parseExif, partition inline),
`"2006:01:02 15:04:05.999-07:00"` and `"2006:01:02 15:04:05.999"`
(parseExifs), and `"2006:01:02 15:04:05-07:00"` (CreateDate fallback).
Each is modelled by a dedicated total parser over the rune list. -/

/-- Parse the common `"2006:01:02 15:04:05"` prefix, with Go's range
validation for month, day (per month/leap year), hour, minute, second. -/
def parseYMDHMS (l : List Char) : Option ((Nat × Nat × Nat × Nat × Nat × Nat) × List Char) := do
  let (y, l) ← parseFixedNat 4 0 l
  let l ← expectChar ':' l
  let (mo, l) ← parseFixedNat 2 0 l
  let l ← expectChar ':' l
  let (d, l) ← parseFixedNat 2 0 l
  let l ← expectChar ' ' l
  let (h, l) ← parseFixedNat 2 0 l
  let l ← expectChar ':' l
  let (mi, l) ← parseFixedNat 2 0 l
  let l ← expectChar ':' l
  let (s, l) ← parseFixedNat 2 0 l
  if 1 ≤ mo ∧ mo ≤ 12 ∧ 1 ≤ d ∧ d ≤ daysInMonth y mo ∧ h < 24 ∧ mi < 60 ∧ s < 60 then
    some ((y, mo, d, h, mi, s), l)
  else none

/-- Layout fragment `.000`: a period followed by exactly three digits
(milliseconds); anything else is a parse error. -/
def parseFrac3 : List Char → Option (Nat × List Char)
  | '.' :: a :: b :: c :: rest =>
    if a.isDigit && b.isDigit && c.isDigit then
      some (digitVal a * 100 + digitVal b * 10 + digitVal c, rest)
    else none
  | _ => none

/-- Millisecond value of a fractional-second digit run (Go keeps
nanoseconds; the program only ever formats milliseconds, which truncate
to the first three digits, right-padded with zeros). -/
def fracMsOfDigits : List Char → Nat
  | [] => 0
  | [a] => digitVal a * 100
  | [a, b] => digitVal a * 100 + digitVal b * 10
  | a :: b :: c :: _ => digitVal a * 100 + digitVal b * 10 + digitVal c

/-- Layout fragment `.999`: an optional period plus a run of one to nine
digits; when absent nothing is consumed and the fraction is zero. -/
def parseFrac9 : List Char → Option (Nat × List Char)
  | '.' :: c :: rest =>
    if c.isDigit then
      let run := List.takeWhile (fun d => d.isDigit) (c :: rest)
      let remaining := List.dropWhile (fun d => d.isDigit) (c :: rest)
      if run.length ≤ 9 then some (fracMsOfDigits run, remaining) else none
    else some (0, '.' :: c :: rest)
  | l => some (0, l)

/-- Layout fragment `-07:00`: a sign, two hour digits, a colon and two
minute digits, yielding the zone offset in minutes. -/
def parseOffsetColon (l : List Char) : Option (Int × List Char) :=
  match l with
  | sign :: h1 :: h2 :: ':' :: m1 :: m2 :: rest =>
    if (sign = '+' ∨ sign = '-') ∧ h1.isDigit ∧ h2.isDigit ∧ m1.isDigit ∧ m2.isDigit then
      let hh := digitVal h1 * 10 + digitVal h2
      let mm := digitVal m1 * 10 + digitVal m2
      let mins : Int := Int.ofNat (hh * 60 + mm)
      some (if sign = '-' then -mins else mins, rest)
    else none
  | _ => none

/-- Models `time.ParseInLocation("2006:01:02 15:04:05.000-07:00", s, time.UTC)`. -/
def parseSubSecOffset3 (s : String) : Option GoTime :=
  match parseYMDHMS s.data with
  | none => none
  | some ((y, mo, d, h, mi, sec), l1) =>
    match parseFrac3 l1 with
    | none => none
    | some (ms, l2) =>
      match parseOffsetColon l2 with
      | none => none
      | some (off, l3) => if l3 = [] then some ⟨y, mo, d, h, mi, sec, ms, off⟩ else none

/-- Models `time.ParseInLocation("2006:01:02 15:04:05.999-07:00", s, time.UTC)`. -/
def parseSubSecOffsetFlex (s : String) : Option GoTime :=
  match parseYMDHMS s.data with
  | none => none
  | some ((y, mo, d, h, mi, sec), l1) =>
    match parseFrac9 l1 with
    | none => none
    | some (ms, l2) =>
      match parseOffsetColon l2 with
      | none => none
      | some (off, l3) => if l3 = [] then some ⟨y, mo, d, h, mi, sec, ms, off⟩ else none

/-- Models `time.ParseInLocation("2006:01:02 15:04:05.999", s, time.UTC)`:
no zone in the layout, so the supplied location (UTC, offset 0) is used. -/
def parseSubSecBare (s : String) : Option GoTime :=
  match parseYMDHMS s.data with
  | none => none
  | some ((y, mo, d, h, mi, sec), l1) =>
    match parseFrac9 l1 with
    | none => none
    | some (ms, l2) => if l2 = [] then some ⟨y, mo, d, h, mi, sec, ms, 0⟩ else none

/-- Models `time.ParseInLocation("2006:01:02 15:04:05-07:00", s, time.UTC)`.
Although this layout has no fractional-second field, Go's `Parse`
documents a special case after the seconds field: a decimal separator
followed by a maximal run of digits is consumed as fractional seconds
even when the layout has none — exactly the `.999` consumption modelled
by `parseFrac9` (Go also accepts a comma as the separator; the model
uses the period form throughout). -/
def parseSecondsOffset (s : String) : Option GoTime :=
  match parseYMDHMS s.data with
  | none => none
  | some ((y, mo, d, h, mi, sec), l1) =>
    match parseFrac9 l1 with
    | none => none
    | some (ms, l2) =>
      match parseOffsetColon l2 with
      | none => none
      | some (off, l3) => if l3 = [] then some ⟨y, mo, d, h, mi, sec, ms, off⟩ else none

/-! ## Metadata records and resolvers -/

/-- The fields the program decodes from one JSON metadata record. -/
structure RawExif where
  FileSize : String
  SubSecDateTimeOriginal : String
  CreateDate : String
  TimeZone : String
deriving DecidableEq, Repr

/-- The program's `Exif` result type. -/
structure Exif where
  CreationTime : GoTime
deriving DecidableEq, Repr

/-- Go runtime faults reachable in the modelled code. -/
inductive RuntimeErr where
  | indexOutOfRange
deriving DecidableEq, Repr

deriving instance DecidableEq for Except

/-- The timestamp-resolution body of `parseExif` applied to one record
(exifutil.go lines 32-43): a non-empty `SubSecDateTimeOriginal` is parsed
with the offset-carrying three-digit-fraction layout (a failure is logged
and leaves the zero time); otherwise a non-empty `CreateDate` has the
`TimeZone` string appended and is parsed with the whole-second layout,
after which the random millisecond jitter is added unconditionally —
also when that parse failed and the time is still the zero time. -/
def parseExifRecord (rawExif : RawExif) (jitter : Nat) : Exif :=
  if rawExif.SubSecDateTimeOriginal ≠ "" then
    match parseSubSecOffset3 rawExif.SubSecDateTimeOriginal with
    | some t => ⟨t⟩
    | none => ⟨zeroGoTime⟩
  else if rawExif.CreateDate ≠ "" then
    ⟨addMillis ((parseSecondsOffset (rawExif.CreateDate ++ rawExif.TimeZone)).getD zeroGoTime) jitter⟩
  else ⟨zeroGoTime⟩

/-- `parseExif` (exifutil.go lines 17-45). The `unmarshalled` argument is
the outcome of `json.Unmarshal` on the payload: `none` is a decode error
(logged, zero `Exif` returned), `some records` is success. Indexing
`rawExifs[0]` on an empty slice is a Go runtime panic, modelled as
`Except.error`. `jitter` is the value drawn by `rand.IntN(1000)`. -/
def parseExif (unmarshalled : Option (List RawExif)) (jitter : Nat) : Except RuntimeErr Exif :=
  match unmarshalled with
  | none => .ok ⟨zeroGoTime⟩
  | some [] => .error .indexOutOfRange
  | some (rawExif :: _) => .ok (parseExifRecord rawExif jitter)

/-- Models `strings.Contains(s, "+") || strings.Contains(s, "-")`. -/
def hasSign (s : String) : Bool := s.data.contains '+' || s.data.contains '-'

/-- The per-record resolution body of `parseExifs` (exifutil.go lines
101-122 of the batch variant): an offset-carrying sub-second value uses
the `.999-07:00` layout, an offset-less one the `.999` layout in UTC;
the `CreateDate` fallback is as in `parseExifRecord`, jitter included. -/
def resolveRecordBatch (rawExif : RawExif) (jitter : Nat) : Exif :=
  if rawExif.SubSecDateTimeOriginal ≠ "" then
    if hasSign rawExif.SubSecDateTimeOriginal then
      match parseSubSecOffsetFlex rawExif.SubSecDateTimeOriginal with
      | some t => ⟨t⟩
      | none => ⟨zeroGoTime⟩
    else
      match parseSubSecBare rawExif.SubSecDateTimeOriginal with
      | some t => ⟨t⟩
      | none => ⟨zeroGoTime⟩
  else if rawExif.CreateDate ≠ "" then
    ⟨addMillis ((parseSecondsOffset (rawExif.CreateDate ++ rawExif.TimeZone)).getD zeroGoTime) jitter⟩
  else ⟨zeroGoTime⟩

/-- Record-by-record loop of `parseExifs`, with one independent jitter
draw per record (indexed by position). -/
def parseExifsAux (jitterAt : Nat → Nat) (i : Nat) : List RawExif → List Exif
  | [] => []
  | r :: rest => resolveRecordBatch r (jitterAt i) :: parseExifsAux jitterAt (i + 1) rest

/-- `parseExifs` (batch variant of exifutil.go, lines 87-125): a decode
error yields the empty list; otherwise every record is resolved. -/
def parseExifs (unmarshalled : Option (List RawExif)) (jitterAt : Nat → Nat) : List Exif :=
  match unmarshalled with
  | none => []
  | some rawExifs => parseExifsAux jitterAt 0 rawExifs

/-! ## Decimal rendering and time formatting -/

/-- The character for the decimal digit `n % 10`. -/
def digitChar (n : Nat) : Char := Char.ofNat (48 + n % 10)

/-- Fuelled most-significant-first decimal digits (fuel `n + 1` always
suffices); kept structural so the kernel can evaluate it. -/
def natCharsAux : Nat → Nat → List Char
  | 0, _ => []
  | fuel + 1, n => if n < 10 then [digitChar n] else natCharsAux fuel (n / 10) ++ [digitChar (n % 10)]

/-- Decimal digits of `n`. -/
def natChars (n : Nat) : List Char := natCharsAux (n + 1) n

/-- Decimal digits of `n` left-padded with zeros to `width`, as Go's
zero-padded layout fields (`2006`, `01`, ..., `000`) render. -/
def padChars (width n : Nat) : List Char :=
  List.replicate (width - (natChars n).length) '0' ++ natChars n

/-- Models Go `creationTime.Format("2006-01-02")`. -/
def formatDateChars (t : GoTime) : List Char :=
  padChars 4 t.year ++ '-' :: padChars 2 t.month ++ '-' :: padChars 2 t.day

/-- String form of `formatDateChars`. -/
def formatDate (t : GoTime) : String := ⟨formatDateChars t⟩

/-- Models the `-0700` layout field: sign then zero-padded hours/minutes
of the zone offset. -/
def offsetChars (off : Int) : List Char :=
  (if off < 0 then '-' else '+') :: (padChars 2 (off.natAbs / 60) ++ padChars 2 (off.natAbs % 60))

/-- Models Go `exif.CreationTime.Format("2006-01-02T150405.000-0700")`. -/
def formatRenameChars (t : GoTime) : List Char :=
  formatDateChars t ++ 'T' :: (padChars 2 t.hour ++ padChars 2 t.minute ++ padChars 2 t.second)
    ++ '.' :: padChars 3 t.millis ++ offsetChars t.offsetMin

/-- String form of `formatRenameChars`. -/
def formatRename (t : GoTime) : String := ⟨formatRenameChars t⟩

/-! ## File path helpers

These model `path/filepath` on the inputs the program produces: clean
slash-separated paths (the program always joins an absolute directory
with a base name). -/

/-- Characters of the final path element (models `filepath.Base` on a
clean path containing a separator). -/
def baseChars (l : List Char) : List Char :=
  (l.reverse.takeWhile (fun c => c ≠ '/')).reverse

/-- Characters of everything before the final separator (models
`filepath.Dir` on a clean path containing a separator). -/
def dirChars (l : List Char) : List Char :=
  ((l.reverse.dropWhile (fun c => c ≠ '/')).drop 1).reverse

/-- Suffix from the final dot of the final path element (models
`filepath.Ext`): empty when the base has no dot. -/
def extChars (l : List Char) : List Char :=
  let b := baseChars l
  let afterDot := b.reverse.takeWhile (fun c => c ≠ '.')
  if afterDot.length = b.length then [] else '.' :: afterDot.reverse

/-- String form of `baseChars`. -/
def goBase (s : String) : String := ⟨baseChars s.data⟩

/-- String form of `dirChars`. -/
def goDir (s : String) : String := ⟨dirChars s.data⟩

/-- String form of `extChars`. -/
def goExt (s : String) : String := ⟨extChars s.data⟩

/-- Models `filepath.Join` on clean arguments: empty components are
absorbed, otherwise the two parts are separated by one slash. -/
def goJoin (a b : String) : String :=
  if a = "" then b else if b = "" then a else ⟨a.data ++ '/' :: b.data⟩

/-! ## Destination planning -/

/-- Rename-mode destination (part_001 line 172):
`filepath.Join(filepath.Dir(filePath), creationTime.Format("2006-01-02T150405.000-0700") + filepath.Ext(filePath))`. -/
def renameNewFilePath (filePath : String) (t : GoTime) : String :=
  goJoin (goDir filePath) ⟨formatRenameChars t ++ extChars filePath.data⟩

/-- Partition-mode date directory (part_000 line 184). -/
def partitionDateDirPath (filePath : String) (t : GoTime) : String :=
  goJoin (goDir filePath) (formatDate t)

/-- Partition-mode destination (part_000 line 185). -/
def partitionNewFilePath (filePath : String) (t : GoTime) : String :=
  goJoin (partitionDateDirPath filePath t) (goBase filePath)

/-- Outcome of `os.Stat` on the destination, as the program's three-way
branch distinguishes it. -/
inductive StatResult where
  | statExists
  | statNotExists
  | statOtherError
deriving DecidableEq, Repr

/-- Observable per-file outcome of the rename-mode body. -/
inductive RenameOutcome where
  | unresolved
  | dryRunPrinted (src dst : String)
  | renamed (dst : String)
  | skippedExists (dst : String)
  | statFailed (dst : String)
deriving DecidableEq, Repr

/-- Per-file decision logic of `RenameCmd.Run` (part_001 lines 167-204):
resolve via `parseExif`; a zero creation time is logged and abandoned;
dry-run prints the plan; replace-if-exists renames unconditionally;
otherwise the destination is stat'ed and the move happens only when it
does not exist. -/
def renameProcess (filePath : String) (unmarshalled : Option (List RawExif)) (jitter : Nat)
    (dryRun replaceIfExists : Bool) (stat : StatResult) : Except RuntimeErr RenameOutcome :=
  match parseExif unmarshalled jitter with
  | .error e => .error e
  | .ok exif =>
    if exif.CreationTime.isZero then .ok .unresolved
    else
      let newFilePath := renameNewFilePath filePath exif.CreationTime
      if dryRun then .ok (.dryRunPrinted filePath newFilePath)
      else if replaceIfExists then .ok (.renamed newFilePath)
      else
        match stat with
        | .statOtherError => .ok (.statFailed newFilePath)
        | .statNotExists => .ok (.renamed newFilePath)
        | .statExists => .ok (.skippedExists newFilePath)

/-- Observable per-file outcome of the partition-mode body. -/
inductive PartitionOutcome where
  | unmarshalFailed
  | subsecParseFailed
  | createDateParseFailed
  | noTimestamp
  | dryRunPrinted (src dst : String)
  | mkdirFailed
  | moved (dst : String)
  | skippedExists (dst : String)
  | statFailed (dst : String)
deriving DecidableEq, Repr

/-- Move/skip logic of `PartitionCmd.Run` after a creation time is in
hand (part_000 lines 184-222): dry-run prints; then `MkdirAll`; then
replace-if-exists moves unconditionally; otherwise stat-then-move. -/
def partitionPlan (filePath : String) (creationTime : GoTime)
    (dryRun replaceIfExists mkdirOk : Bool) (stat : StatResult) : PartitionOutcome :=
  let newFilePath := partitionNewFilePath filePath creationTime
  if dryRun then .dryRunPrinted filePath newFilePath
  else if ¬mkdirOk then .mkdirFailed
  else if replaceIfExists then .moved newFilePath
  else
    match stat with
    | .statOtherError => .statFailed newFilePath
    | .statNotExists => .moved newFilePath
    | .statExists => .skippedExists newFilePath

/-- Per-file decision logic of `PartitionCmd.Run` (part_000 lines
159-222): decode failure is logged and abandoned; `exifs[0]` on an empty
slice is a runtime panic; the inline resolver distinguishes sub-second
parse failure, fallback parse failure (which, unlike `parseExif`, breaks
before any jitter is added) and a missing timestamp; a resolved time
goes to `partitionPlan`. -/
def partitionProcess (filePath : String) (unmarshalled : Option (List RawExif)) (jitter : Nat)
    (dryRun replaceIfExists mkdirOk : Bool) (stat : StatResult) : Except RuntimeErr PartitionOutcome :=
  match unmarshalled with
  | none => .ok .unmarshalFailed
  | some [] => .error .indexOutOfRange
  | some (exif :: _) =>
    if exif.SubSecDateTimeOriginal ≠ "" then
      match parseSubSecOffset3 exif.SubSecDateTimeOriginal with
      | none => .ok .subsecParseFailed
      | some t => .ok (partitionPlan filePath t dryRun replaceIfExists mkdirOk stat)
    else if exif.CreateDate ≠ "" then
      match parseSecondsOffset (exif.CreateDate ++ exif.TimeZone) with
      | none => .ok .createDateParseFailed
      | some t0 => .ok (partitionPlan filePath (addMillis t0 jitter) dryRun replaceIfExists mkdirOk stat)
    else .ok .noTimestamp

/-- The partition-mode inline resolver in isolation: the creation time
it hands to the planner, `none` when the file is abandoned. -/
def partitionResolveRecord (exif : RawExif) (jitter : Nat) : Option GoTime :=
  if exif.SubSecDateTimeOriginal ≠ "" then parseSubSecOffset3 exif.SubSecDateTimeOriginal
  else if exif.CreateDate ≠ "" then
    (parseSecondsOffset (exif.CreateDate ++ exif.TimeZone)).map (fun t => addMillis t jitter)
  else none

/-! ## Pattern compilation and matching

`compileRegexp` (exifutil.go lines 47-70) rewrites the pattern text and
hands it to `regexp.Compile`. The patterns exercised by the claims use
only literal characters, backslash escapes and the `.` wildcard, so the
matcher is modelled for exactly that fragment of Go regular expressions
(unanchored substring search, as `MatchString` performs). -/

/-- Tokens of the modelled regular-expression fragment. -/
inductive RTok where
  | rlit (c : Char)
  | rany
deriving DecidableEq, Repr

/-- Lex a pattern of literals, escapes and `.` wildcards; a trailing
backslash is a compilation error. -/
def lexRegex : List Char → Option (List RTok)
  | [] => some []
  | ['\\'] => none
  | '\\' :: c :: rest => (lexRegex rest).map (fun ts => RTok.rlit c :: ts)
  | '.' :: rest => (lexRegex rest).map (fun ts => RTok.rany :: ts)
  | c :: rest => (lexRegex rest).map (fun ts => RTok.rlit c :: ts)

/-- Whether one token matches one character. -/
def tokMatchesChar : RTok → Char → Bool
  | .rlit c, d => c == d
  | .rany, _ => true

/-- Whether the token list matches a leading segment of the text. -/
def matchToksAt : List RTok → List Char → Bool
  | [], _ => true
  | _ :: _, [] => false
  | t :: ts, c :: cs => tokMatchesChar t c && matchToksAt ts cs

/-- Unanchored match: some suffix of the text starts a match. -/
def matchToksAnywhere (ts : List RTok) : List Char → Bool
  | [] => matchToksAt ts []
  | c :: cs => matchToksAt ts (c :: cs) || matchToksAnywhere ts cs

/-- Models `regexp.MustCompile(pat).MatchString(s)` for the modelled
fragment; an ill-formed pattern matches nothing. -/
def reMatches (pat s : String) : Bool :=
  match lexRegex pat.data with
  | none => false
  | some ts => matchToksAnywhere ts s.data

/-- ASCII letter test, exactly the source's
`('a' <= next && next <= 'z') || ('A' <= next && next <= 'Z')`. -/
def isAsciiAlpha (c : Char) : Bool :=
  decide (('a' ≤ c ∧ c ≤ 'z') ∨ ('A' ≤ c ∧ c ≤ 'Z'))

/-- Whether the next rune is an ASCII letter; at the end of the input Go
`utf8.DecodeRuneInString` yields `RuneError`, which is not a letter. -/
def headIsAlpha : List Char → Bool
  | [] => false
  | c :: _ => isAsciiAlpha c

/-- The rewrite loop of `compileRegexp` (exifutil.go lines 57-68): `prev`
is the last rune written to the builder (after writing an escaped period
that last rune is the period itself), and an unescaped period directly
before an ASCII letter becomes a backslash-escaped period. -/
def rewriteDots : Char → List Char → List Char
  | _, [] => []
  | prev, c :: rest =>
    if prev ≠ '\\' ∧ c = '.' ∧ headIsAlpha rest then
      '\\' :: '.' :: rewriteDots '.' rest
    else
      c :: rewriteDots c rest

/-- Go `utf8.RuneError`, the value of `prev` while the builder is empty. -/
def runeErrorChar : Char := '�'

/-- The pattern-text transformation of `compileRegexp` (exifutil.go lines
47-69): a pattern without periods is compiled as-is; otherwise a leading
`./` (on patterns longer than two runes) is stripped and the rewrite
loop is applied. -/
def compileRegexpPattern (pattern : String) : String :=
  if pattern.data.count '.' = 0 then pattern
  else
    let p := if pattern.data.take 2 = ['.', '/'] ∧ pattern.data.length > 2
      then (⟨pattern.data.drop 2⟩ : String) else pattern
    ⟨rewriteDots runeErrorChar p.data⟩

/-! ## Worker dispatch

The producers that feed the shared `filePaths` channel. Each channel
send is received by exactly one worker, so the multiset of sends is the
multiset of processed candidates. -/

/-- Path production of `RenameCmd.Run` over one non-recursive root
(part_001 lines 209-233): each directory entry is sent at most once —
on the first matching compiled pattern the walk callback sends and
immediately returns. -/
def renameDispatchDir (compiledPatterns : List String) (root : String)
    (names : List String) : List String :=
  names.flatMap (fun name =>
    if compiledPatterns.any (fun p => reMatches p name) then [goJoin root name] else [])

/-- Path production of `PartitionCmd.Run` (part_000 lines 226-249): the
directory enumeration is nested inside the `for i < NumWorkers` loop, so
it runs once per worker; and the `break` after a send only leaves the
`select`, so a name is sent once per matching pattern. -/
def partitionDispatch (numWorkers : Nat) (compiledPatterns : List String) (cwd : String)
    (names : List String) : List String :=
  (List.range numWorkers).flatMap (fun _ =>
    names.flatMap (fun name =>
      compiledPatterns.flatMap (fun p =>
        if reMatches p name then [goJoin cwd name] else [])))

/-! ## Session response framing -/

/-- One `reader.ReadBytes('\n')` outcome on the exiftool stdout stream. -/
inductive StreamItem where
  | line (s : String)
  | endOfStream
  | readFailure
deriving DecidableEq, Repr

/-- Result of the sentinel-scanning loop. -/
inductive ReadResult where
  | payload (s : String)
  | fatalEOF
  | fatalReadError
deriving DecidableEq, Repr

/-- The response-framing loop (part_001 lines 150-166, part_000 lines
142-158): lines are accumulated until the `{ready}` sentinel line; an
`io.EOF` is logged and returns from the worker goroutine, as is any
other read error. An exhausted stream is end-of-stream. -/
def readUntilReady : List StreamItem → String → ReadResult
  | [], _ => .fatalEOF
  | .endOfStream :: _, _ => .fatalEOF
  | .readFailure :: _, _ => .fatalReadError
  | .line l :: rest, acc =>
    if l = "\x7bready\x7d\n" then .payload acc else readUntilReady rest (acc ++ l)

/-- Whether the worker loop keeps running after one request. -/
inductive SessionControl where
  | continueLoop
  | terminateLoop
deriving DecidableEq, Repr

/-- One rename-mode request round-trip: framing, then the per-file body.
`decode` models `json.Unmarshal` on the accumulated payload. A fatal
framing result returns from the goroutine (no outcome); otherwise the
body runs and the loop continues to the next path. -/
def renameSessionStep (stream : List StreamItem) (decode : String → Option (List RawExif))
    (filePath : String) (jitter : Nat) (dryRun replaceIfExists : Bool) (stat : StatResult) :
    SessionControl × Option (Except RuntimeErr RenameOutcome) :=
  match readUntilReady stream "" with
  | .fatalEOF => (.terminateLoop, none)
  | .fatalReadError => (.terminateLoop, none)
  | .payload p =>
    (.continueLoop, some (renameProcess filePath (decode p) jitter dryRun replaceIfExists stat))

/-- One partition-mode request round-trip; as `renameSessionStep`. -/
def partitionSessionStep (stream : List StreamItem) (decode : String → Option (List RawExif))
    (filePath : String) (jitter : Nat) (dryRun replaceIfExists mkdirOk : Bool) (stat : StatResult) :
    SessionControl × Option (Except RuntimeErr PartitionOutcome) :=
  match readUntilReady stream "" with
  | .fatalEOF => (.terminateLoop, none)
  | .fatalReadError => (.terminateLoop, none)
  | .payload p =>
    (.continueLoop, some (partitionProcess filePath (decode p) jitter dryRun replaceIfExists mkdirOk stat))

/-! ## Helper lemmas -/

theorem natChars_ne_nil (n : Nat) : natChars n ≠ [] := by
  unfold natChars natCharsAux
  split <;> simp

theorem padChars_ne_nil (width n : Nat) : padChars width n ≠ [] := by
  unfold padChars
  simp [natChars_ne_nil]

theorem formatDateChars_ne_nil (t : GoTime) : formatDateChars t ≠ [] := by
  unfold formatDateChars
  simp [padChars_ne_nil]

theorem takeWhile_no_slash (xs ys : List Char) (h : ∀ c ∈ xs, c ≠ '/') :
    (xs ++ '/' :: ys).takeWhile (fun c => decide (c ≠ '/')) = xs := by
  induction xs with
  | nil => simp [List.takeWhile]
  | cons x xs ih =>
    have hx : x ≠ '/' := h x (List.mem_cons_self x xs)
    simp only [List.cons_append, List.takeWhile]
    rw [decide_eq_true hx]
    simp only [List.cons.injEq, true_and]
    exact ih (fun c hc => h c (List.mem_cons_of_mem x hc))

theorem dropWhile_no_slash (xs ys : List Char) (h : ∀ c ∈ xs, c ≠ '/') :
    (xs ++ '/' :: ys).dropWhile (fun c => decide (c ≠ '/')) = '/' :: ys := by
  induction xs with
  | nil => simp [List.dropWhile]
  | cons x xs ih =>
    have hx : x ≠ '/' := h x (List.mem_cons_self x xs)
    simp only [List.cons_append, List.dropWhile]
    rw [decide_eq_true hx]
    exact ih (fun c hc => h c (List.mem_cons_of_mem x hc))

theorem baseChars_join (cwd name : List Char) (h : ∀ c ∈ name, c ≠ '/') :
    baseChars (cwd ++ '/' :: name) = name := by
  unfold baseChars
  have hrev : (cwd ++ '/' :: name).reverse = name.reverse ++ '/' :: cwd.reverse := by
    simp [List.reverse_append]
  rw [hrev, takeWhile_no_slash _ _ (by intro c hc; exact h c (List.mem_reverse.mp hc))]
  simp

theorem dirChars_join (cwd name : List Char) (h : ∀ c ∈ name, c ≠ '/') :
    dirChars (cwd ++ '/' :: name) = cwd := by
  unfold dirChars
  have hrev : (cwd ++ '/' :: name).reverse = name.reverse ++ '/' :: cwd.reverse := by
    simp [List.reverse_append]
  rw [hrev, dropWhile_no_slash _ _ (by intro c hc; exact h c (List.mem_reverse.mp hc))]
  simp

theorem string_mk_ne_empty {l : List Char} (h : l ≠ []) : (⟨l⟩ : String) ≠ "" := by
  intro he
  exact h (by simpa using congrArg String.data he)

theorem addMillis_small (t : GoTime) (k : Nat) (h : t.millis + k < 1000) :
    addMillis t k = { t with millis := t.millis + k } := by
  unfold addMillis
  have h1 : (t.millis + k) / 1000 = 0 := by omega
  have h2 : (t.millis + k) % 1000 = t.millis + k := by omega
  rw [h1, h2]
  rfl

theorem parseSubSecBare_offsetMin {s : String} {t : GoTime}
    (h : parseSubSecBare s = some t) : t.offsetMin = 0 := by
  unfold parseSubSecBare at h
  split at h
  · exact absurd h (by simp)
  · split at h
    · exact absurd h (by simp)
    · split at h
      · simp only [Option.some.injEq] at h
        subst h
        rfl
      · exact absurd h (by simp)

/-! ## Claim theorems -/

/-- C1: the claim states that every candidate path is received by exactly
one worker session and processed exactly once per run, in both modes,
for any worker count and also when several patterns match. Rename mode
does dispatch each matching file once, but in partition mode the
directory enumeration sits inside the worker-creation loop and the
`break` after a send only leaves the `select`, so one file matching one
pattern is enqueued once per worker, and one file matching two patterns
is enqueued once per matching pattern: with two workers, or with two
matching patterns, `a.jpg` enters the channel twice. -/
theorem partition_dispatch_duplicates :
    partitionDispatch 2 [compileRegexpPattern "a.jpg"] "/pics" ["a.jpg"] =
      ["/pics/a.jpg", "/pics/a.jpg"] ∧
    partitionDispatch 1 [compileRegexpPattern "a.jpg", compileRegexpPattern "a.j"] "/pics"
      ["a.jpg"] = ["/pics/a.jpg", "/pics/a.jpg"] ∧
    renameDispatchDir [compileRegexpPattern "a.jpg", compileRegexpPattern "a.j"] "/pics"
      ["a.jpg"] = ["/pics/a.jpg"] := by decide

/-- C2 (counterexample): the claim states a destination plan's
destination never equals its source, in particular that rename mode on a
file already bearing its canonical timestamp name still yields a
different destination. For the canonically named file
`/pics/2023-05-10T142201.500-0700.CR2` whose metadata resolves to the
same capture time, rename mode recomputes exactly the source path, and
the run then reports the destination (the source itself) as already
existing. -/
theorem rename_dest_equals_source_cex :
    renameNewFilePath "/pics/2023-05-10T142201.500-0700.CR2"
      ⟨2023, 5, 10, 14, 22, 1, 500, -420⟩ = "/pics/2023-05-10T142201.500-0700.CR2" ∧
    renameProcess "/pics/2023-05-10T142201.500-0700.CR2"
      (some [⟨"", "2023:05:10 14:22:01.500-07:00", "", ""⟩]) 0 false false .statExists =
      .ok (.skippedExists "/pics/2023-05-10T142201.500-0700.CR2") := by decide

/-- C2 (amended): in partition mode the destination path always differs
from the source path, because the destination inserts a nonempty date
directory between the source's directory and its base name; in rename
mode the destination can equal the source (see the counterexample). -/
theorem partition_dest_ne_source (cwd name : String) (t : GoTime)
    (hcwd : cwd ≠ "") (hname : name ≠ "") (hslash : ∀ c ∈ name.data, c ≠ '/') :
    partitionNewFilePath (goJoin cwd name) t ≠ goJoin cwd name := by
  have hjoin : goJoin cwd name = ⟨cwd.data ++ '/' :: name.data⟩ := by
    unfold goJoin
    rw [if_neg hcwd, if_neg hname]
  have hdir : goDir (goJoin cwd name) = cwd := by
    rw [hjoin]
    show (⟨dirChars (cwd.data ++ '/' :: name.data)⟩ : String) = cwd
    rw [dirChars_join _ _ hslash]
  have hbase : goBase (goJoin cwd name) = name := by
    rw [hjoin]
    show (⟨baseChars (cwd.data ++ '/' :: name.data)⟩ : String) = name
    rw [baseChars_join _ _ hslash]
  have hfd : formatDate t ≠ "" := string_mk_ne_empty (formatDateChars_ne_nil t)
  have hdd : partitionDateDirPath (goJoin cwd name) t =
      ⟨cwd.data ++ '/' :: formatDateChars t⟩ := by
    unfold partitionDateDirPath
    rw [hdir]
    unfold goJoin
    rw [if_neg hcwd, if_neg hfd]
    rfl
  have hnew : partitionNewFilePath (goJoin cwd name) t =
      ⟨(cwd.data ++ '/' :: formatDateChars t) ++ '/' :: name.data⟩ := by
    unfold partitionNewFilePath
    rw [hbase, hdd]
    unfold goJoin
    rw [if_neg (string_mk_ne_empty (by simp)), if_neg hname]
  rw [hnew, hjoin]
  intro he
  have hlist : (cwd.data ++ '/' :: formatDateChars t) ++ '/' :: name.data =
      cwd.data ++ '/' :: name.data := by
    simpa using congrArg String.data he
  have := congrArg List.length hlist
  simp only [List.length_append, List.length_cons] at this
  omega

/-- Witness for the amended C2 theorem at a concrete path and time. -/
theorem partition_dest_ne_source_witness :
    ("/pics" : String) ≠ "" ∧ ("a.jpg" : String) ≠ "" ∧
    partitionNewFilePath (goJoin "/pics" "a.jpg") ⟨2023, 5, 10, 14, 22, 1, 500, -420⟩ ≠
      goJoin "/pics" "a.jpg" :=
  ⟨by decide, by decide,
    partition_dest_ne_source "/pics" "a.jpg" ⟨2023, 5, 10, 14, 22, 1, 500, -420⟩
      (by decide) (by decide) (by decide)⟩

/-- C3 (counterexample): the claim states that a non-empty sub-second
field without a timezone offset is interpreted as UTC with sub-second
precision. The single-record resolver and the partition-mode inline
resolver parse such a field with the offset-requiring layout
`2006:01:02 15:04:05.000-07:00`, so `2023:05:10 14:22:01.500` fails to
parse: `parseExif` leaves the zero time (not the UTC instant
2023-05-10 14:22:01.500) and partition mode abandons the file. -/
theorem subsec_no_offset_not_utc_cex :
    parseExif (some [⟨"", "2023:05:10 14:22:01.500", "", ""⟩]) 0 = .ok ⟨zeroGoTime⟩ ∧
    partitionProcess "/pics/a.jpg" (some [⟨"", "2023:05:10 14:22:01.500", "", ""⟩]) 0
      false false true .statNotExists = .ok .subsecParseFailed ∧
    zeroGoTime ≠ ⟨2023, 5, 10, 14, 22, 1, 500, 0⟩ := by decide

/-- C4: the claim states that whenever the present timestamp field fails
to parse, the failure is logged and the file is left in place in both
modes. Partition mode does abandon the file, but `parseExif` adds the
random millisecond jitter after a failed `CreateDate` parse, turning the
zero time into 0001-01-01 00:00:00.500 UTC, which passes the `IsZero`
guard: rename mode then renames the file to the bogus canonical name
`0001-01-01T000000.500+0000.jpg` instead of leaving it in place. -/
theorem fallback_parse_error_renames_file :
    renameProcess "/pics/a.jpg" (some [⟨"", "", "garbage", ""⟩]) 500 false false .statNotExists =
      .ok (.renamed "/pics/0001-01-01T000000.500+0000.jpg") ∧
    partitionProcess "/pics/a.jpg" (some [⟨"", "", "garbage", ""⟩]) 500 false false true
      .statNotExists = .ok .createDateParseFailed := by decide

/-- C5: the claim states that every syntactically valid JSON payload,
including the empty array, is handled without panicking, by logging and
abandoning the file. The empty array decodes successfully to a slice of
zero records, and both `parseExif` (`rawExifs[0]`) and the partition
body (`exifs[0]`) then index element 0 of an empty slice — a Go runtime
panic that crashes the process, not a logged, local abandonment. -/
theorem empty_payload_runtime_fault :
    parseExif (some []) 0 = .error .indexOutOfRange ∧
    partitionProcess "/pics/a.jpg" (some []) 0 false false true .statNotExists =
      .error .indexOutOfRange ∧
    renameProcess "/pics/a.jpg" (some []) 0 false false .statNotExists =
      .error .indexOutOfRange := by decide

/-- C6 (counterexample): the claim states that for every record with an
empty sub-second field and a fallback capture-date that parses with the
appended offset, the resolved time is the parsed instant plus a
sub-second jitter whose date/hour/minute/second components still match
the input fields. Go's parser accepts a fractional second after the
seconds field even though the fallback layout has none, so
`2023:05:10 14:22:01.5` with offset `-07:00` parses to an instant with
500 milliseconds, and a jitter draw of 600 rolls the second: the
resolved second component is 2 while the input's seconds field is 1. -/
theorem fallback_fractional_second_rolls_cex :
    parseSecondsOffset ("2023:05:10 14:22:01.5" ++ "-07:00") =
      some ⟨2023, 5, 10, 14, 22, 1, 500, -420⟩ ∧
    parseExif (some [⟨"", "", "2023:05:10 14:22:01.5", "-07:00"⟩]) 600 =
      .ok ⟨⟨2023, 5, 10, 14, 22, 2, 100, -420⟩⟩ ∧
    (GoTime.mk 2023 5 10 14 22 2 100 (-420)).second ≠
      (GoTime.mk 2023 5 10 14 22 1 500 (-420)).second := by decide

/-- C6 (amended): for a record with an empty sub-second field whose
fallback capture-date plus appended timezone-offset parses to a
whole-second instant `t` (no fractional part in the field, the case the
spec's whole-second-precision premise describes), the resolved capture
time is exactly `t` plus the `k`-millisecond jitter with
`0 ≤ k < 1000`: the date, hour, minute and second fields (and the zone
offset) are those of the parsed instant, and the millisecond field is
exactly `k`, hence below 1000. -/
theorem fallback_resolution_adds_bounded_jitter (r : RawExif) (rest : List RawExif)
    (t : GoTime) (k : Nat)
    (hsub : r.SubSecDateTimeOriginal = "") (hcd : r.CreateDate ≠ "")
    (hparse : parseSecondsOffset (r.CreateDate ++ r.TimeZone) = some t)
    (hms : t.millis = 0) (hk : k < 1000) :
    parseExif (some (r :: rest)) k = .ok ⟨addMillis t k⟩ ∧
    (addMillis t k).year = t.year ∧ (addMillis t k).month = t.month ∧
    (addMillis t k).day = t.day ∧ (addMillis t k).hour = t.hour ∧
    (addMillis t k).minute = t.minute ∧ (addMillis t k).second = t.second ∧
    (addMillis t k).offsetMin = t.offsetMin ∧
    (addMillis t k).millis = k ∧ (addMillis t k).millis < 1000 := by
  have e : addMillis t k = { t with millis := t.millis + k } :=
    addMillis_small t k (by omega)
  refine ⟨?_, by rw [e], by rw [e], by rw [e], by rw [e], by rw [e], by rw [e],
    by rw [e], ?_, ?_⟩
  · have h0 : parseExif (some (r :: rest)) k = .ok (parseExifRecord r k) := rfl
    rw [h0]
    unfold parseExifRecord
    rw [if_neg (by simp [hsub]), if_pos hcd, hparse]
    rfl
  · rw [e]
    show t.millis + k = k
    omega
  · rw [e]
    show t.millis + k < 1000
    omega

/-- Witness for the amended C6 theorem: fallback fields
`2023:05:10 14:22:01` with offset `-07:00` and jitter draw 250. -/
theorem fallback_resolution_adds_bounded_jitter_witness :
    parseSecondsOffset ("2023:05:10 14:22:01" ++ "-07:00") =
      some ⟨2023, 5, 10, 14, 22, 1, 0, -420⟩ ∧ (250 : Nat) < 1000 ∧
    parseExif (some [⟨"", "", "2023:05:10 14:22:01", "-07:00"⟩]) 250 =
      .ok ⟨addMillis ⟨2023, 5, 10, 14, 22, 1, 0, -420⟩ 250⟩ ∧
    (addMillis ⟨2023, 5, 10, 14, 22, 1, 0, -420⟩ 250).millis = 250 :=
  ⟨by decide, by decide,
    (fallback_resolution_adds_bounded_jitter ⟨"", "", "2023:05:10 14:22:01", "-07:00"⟩ []
      ⟨2023, 5, 10, 14, 22, 1, 0, -420⟩ 250 (by decide) (by decide) (by decide) (by decide)
      (by decide)).1,
    (fallback_resolution_adds_bounded_jitter ⟨"", "", "2023:05:10 14:22:01", "-07:00"⟩ []
      ⟨2023, 5, 10, 14, 22, 1, 0, -420⟩ 250 (by decide) (by decide) (by decide) (by decide)
      (by decide)).2.2.2.2.2.2.2.2.1⟩

/-- C7: the rewrite loop of `compileRegexp` escapes an unescaped period
standing directly before an ASCII letter (first conjunct), emits an
already-escaped period unchanged (second conjunct), and the matcher
compiled from pattern `img.jpg` — the rewritten text `img\.jpg` —
matches the filename `img.jpg` and does not match `imgXjpg`. -/
theorem dot_rewrite_correct :
    (∀ (prev c : Char) (rest : List Char), prev ≠ '\\' → isAsciiAlpha c = true →
      rewriteDots prev ('.' :: c :: rest) = '\\' :: '.' :: rewriteDots '.' (c :: rest)) ∧
    (∀ (prev : Char) (rest : List Char),
      rewriteDots prev ('\\' :: '.' :: rest) = '\\' :: '.' :: rewriteDots '.' rest) ∧
    compileRegexpPattern "img.jpg" = "img\\.jpg" ∧
    reMatches (compileRegexpPattern "img.jpg") "img.jpg" = true ∧
    reMatches (compileRegexpPattern "img.jpg") "imgXjpg" = false := by
  refine ⟨?_, ?_, by decide, by decide, by decide⟩
  · intro prev c rest hprev hc
    rw [rewriteDots]
    rw [if_pos ⟨hprev, rfl, by simp [headIsAlpha, hc]⟩]
  · intro prev rest
    rw [rewriteDots]
    rw [if_neg (by rintro ⟨-, hdot, -⟩; exact absurd hdot (by decide))]
    rw [rewriteDots]
    rw [if_neg (by rintro ⟨hb, -⟩; exact hb rfl)]

/-- Witness for the C7 theorem: the escape fires at `prev = 'g'`,
`next = 'j'`, and an escaped period passes through unchanged. -/
theorem dot_rewrite_correct_witness :
    ('g' : Char) ≠ '\\' ∧ isAsciiAlpha 'j' = true ∧
    rewriteDots 'g' ('.' :: 'j' :: ['p', 'g']) =
      '\\' :: '.' :: rewriteDots '.' ('j' :: ['p', 'g']) ∧
    rewriteDots 'a' ('\\' :: '.' :: ['j']) = '\\' :: '.' :: rewriteDots '.' ['j'] :=
  ⟨by decide, by decide,
    dot_rewrite_correct.1 'g' 'j' ['p', 'g'] (by decide) (by decide),
    dot_rewrite_correct.2.1 'a' ['j']⟩

/-- C8: in both modes, with replace-if-exists and dry-run off and a
resolved capture time in hand, an existing destination makes the run
skip the move (the skip outcome only logs; no filesystem mutation
touches the destination) while an absent destination makes the run
perform the move. -/
theorem conflict_policy_skip_or_move (filePath : String) (r : RawExif) (rest : List RawExif)
    (j : Nat) (t : GoTime)
    (hres : partitionResolveRecord r j = some t)
    (hren : (parseExifRecord r j).CreationTime.isZero = false) :
    partitionProcess filePath (some (r :: rest)) j false false true .statExists =
      .ok (.skippedExists (partitionNewFilePath filePath t)) ∧
    partitionProcess filePath (some (r :: rest)) j false false true .statNotExists =
      .ok (.moved (partitionNewFilePath filePath t)) ∧
    renameProcess filePath (some (r :: rest)) j false false .statExists =
      .ok (.skippedExists (renameNewFilePath filePath (parseExifRecord r j).CreationTime)) ∧
    renameProcess filePath (some (r :: rest)) j false false .statNotExists =
      .ok (.renamed (renameNewFilePath filePath (parseExifRecord r j).CreationTime)) := by
  have hpart : ∀ st : StatResult,
      partitionProcess filePath (some (r :: rest)) j false false true st =
        .ok (partitionPlan filePath t false false true st) := by
    intro st
    unfold partitionResolveRecord at hres
    show (if r.SubSecDateTimeOriginal ≠ "" then
        match parseSubSecOffset3 r.SubSecDateTimeOriginal with
        | none => Except.ok PartitionOutcome.subsecParseFailed
        | some t => .ok (partitionPlan filePath t false false true st)
      else if r.CreateDate ≠ "" then
        match parseSecondsOffset (r.CreateDate ++ r.TimeZone) with
        | none => Except.ok PartitionOutcome.createDateParseFailed
        | some t0 => .ok (partitionPlan filePath (addMillis t0 j) false false true st)
      else Except.ok PartitionOutcome.noTimestamp) =
      .ok (partitionPlan filePath t false false true st)
    by_cases h1 : r.SubSecDateTimeOriginal ≠ ""
    · rw [if_pos h1] at hres ⊢
      rw [hres]
    · rw [if_neg h1] at hres ⊢
      by_cases h2 : r.CreateDate ≠ ""
      · rw [if_pos h2] at hres ⊢
        rcases hp : parseSecondsOffset (r.CreateDate ++ r.TimeZone) with _ | t0 <;>
          rw [hp] at hres
        · exact absurd hres (by simp)
        · simp only [Option.map_some'] at hres
          rw [Option.some.injEq] at hres
          rw [← hres]
      · rw [if_neg h2] at hres
        exact absurd hres (by simp)
  refine ⟨?_, ?_, ?_, ?_⟩
  · rw [hpart .statExists]
    rfl
  · rw [hpart .statNotExists]
    rfl
  · have h0 : renameProcess filePath (some (r :: rest)) j false false .statExists =
        (if (parseExifRecord r j).CreationTime.isZero then .ok .unresolved
          else .ok (.skippedExists (renameNewFilePath filePath
            (parseExifRecord r j).CreationTime))) := rfl
    rw [h0, if_neg (by simp [hren])]
  · have h0 : renameProcess filePath (some (r :: rest)) j false false .statNotExists =
        (if (parseExifRecord r j).CreationTime.isZero then .ok .unresolved
          else .ok (.renamed (renameNewFilePath filePath
            (parseExifRecord r j).CreationTime))) := rfl
    rw [h0, if_neg (by simp [hren])]

/-- Witness for the C8 theorem at a concrete record and path. -/
theorem conflict_policy_skip_or_move_witness :
    partitionResolveRecord ⟨"", "2023:05:10 14:22:01.500-07:00", "", ""⟩ 0 =
      some ⟨2023, 5, 10, 14, 22, 1, 500, -420⟩ ∧
    partitionProcess "/pics/a.jpg" (some [⟨"", "2023:05:10 14:22:01.500-07:00", "", ""⟩]) 0
      false false true .statExists =
      .ok (.skippedExists (partitionNewFilePath "/pics/a.jpg"
        ⟨2023, 5, 10, 14, 22, 1, 500, -420⟩)) ∧
    renameProcess "/pics/a.jpg" (some [⟨"", "2023:05:10 14:22:01.500-07:00", "", ""⟩]) 0
      false false .statNotExists =
      .ok (.renamed (renameNewFilePath "/pics/a.jpg"
        (parseExifRecord ⟨"", "2023:05:10 14:22:01.500-07:00", "", ""⟩ 0).CreationTime)) :=
  ⟨by decide,
    (conflict_policy_skip_or_move "/pics/a.jpg" ⟨"", "2023:05:10 14:22:01.500-07:00", "", ""⟩
      [] 0 ⟨2023, 5, 10, 14, 22, 1, 500, -420⟩ (by decide) (by decide)).1,
    (conflict_policy_skip_or_move "/pics/a.jpg" ⟨"", "2023:05:10 14:22:01.500-07:00", "", ""⟩
      [] 0 ⟨2023, 5, 10, 14, 22, 1, 500, -420⟩ (by decide) (by decide)).2.2.2⟩

/-- C9: within one session's request loop, a payload whose JSON decode
fails yields a logged, local abandonment and the loop continues to the
next path (in rename mode the zero time is reported unresolved, in
partition mode the unmarshal failure is reported), whereas an
end-of-stream while scanning for the `{ready}` sentinel returns from the
worker goroutine, terminating only that session's loop. -/
theorem session_step_local_vs_fatal (stream : List StreamItem)
    (decode : String → Option (List RawExif)) (filePath : String) (j : Nat)
    (dry rep mkOk : Bool) (stat : StatResult) :
    (readUntilReady stream "" = .fatalEOF →
      renameSessionStep stream decode filePath j dry rep stat = (.terminateLoop, none) ∧
      partitionSessionStep stream decode filePath j dry rep mkOk stat =
        (.terminateLoop, none)) ∧
    (∀ p, readUntilReady stream "" = .payload p → decode p = none →
      renameSessionStep stream decode filePath j dry rep stat =
        (.continueLoop, some (.ok .unresolved)) ∧
      partitionSessionStep stream decode filePath j dry rep mkOk stat =
        (.continueLoop, some (.ok .unmarshalFailed))) := by
  refine ⟨fun h => ?_, fun p hp hd => ?_⟩
  · unfold renameSessionStep partitionSessionStep
    rw [h]
    exact ⟨rfl, rfl⟩
  · constructor
    · calc renameSessionStep stream decode filePath j dry rep stat
          = (SessionControl.continueLoop,
              some (renameProcess filePath (decode p) j dry rep stat)) := by
            unfold renameSessionStep
            rw [hp]
        _ = (SessionControl.continueLoop, some (Except.ok RenameOutcome.unresolved)) := by
            rw [hd]
            rfl
    · calc partitionSessionStep stream decode filePath j dry rep mkOk stat
          = (SessionControl.continueLoop,
              some (partitionProcess filePath (decode p) j dry rep mkOk stat)) := by
            unfold partitionSessionStep
            rw [hp]
        _ = (SessionControl.continueLoop,
              some (Except.ok PartitionOutcome.unmarshalFailed)) := by
            rw [hd]
            rfl

/-- Witness for the C9 theorem: a stream hitting end-of-stream before the
sentinel terminates the loop; a framed payload that fails to decode is
abandoned and the loop continues. -/
theorem session_step_local_vs_fatal_witness :
    readUntilReady [StreamItem.line "a\n", StreamItem.endOfStream] "" = .fatalEOF ∧
    renameSessionStep [StreamItem.line "a\n", StreamItem.endOfStream] (fun _ => none)
      "/pics/a.jpg" 0 false false .statNotExists = (.terminateLoop, none) ∧
    readUntilReady [StreamItem.line "x\n", StreamItem.line "\x7bready\x7d\n"] "" =
      .payload "x\n" ∧
    partitionSessionStep [StreamItem.line "x\n", StreamItem.line "\x7bready\x7d\n"]
      (fun _ => none) "/pics/a.jpg" 0 false false true .statNotExists =
      (.continueLoop, some (.ok .unmarshalFailed)) :=
  ⟨by decide,
    ((session_step_local_vs_fatal [StreamItem.line "a\n", StreamItem.endOfStream]
      (fun _ => none) "/pics/a.jpg" 0 false false true .statNotExists).1 (by decide)).1,
    by decide,
    ((session_step_local_vs_fatal [StreamItem.line "x\n", StreamItem.line "\x7bready\x7d\n"]
      (fun _ => none) "/pics/a.jpg" 0 false false true .statNotExists).2 "x\n"
      (by decide) rfl).2⟩

theorem parseFrac3_inv {l : List Char} {ms : Nat} {rest : List Char}
    (h : parseFrac3 l = some (ms, rest)) :
    ∃ a b c, l = '.' :: a :: b :: c :: rest ∧ a.isDigit = true ∧ b.isDigit = true ∧
      c.isDigit = true ∧ ms = digitVal a * 100 + digitVal b * 10 + digitVal c := by
  unfold parseFrac3 at h
  split at h
  · rename_i a b c rest2
    split at h
    · rename_i hcond
      rw [Option.some.injEq, Prod.mk.injEq] at h
      obtain ⟨hms, hrest⟩ := h
      subst hrest
      simp only [Bool.and_eq_true] at hcond
      exact ⟨a, b, c, rfl, hcond.1.1, hcond.1.2, hcond.2, hms.symm⟩
    · exact absurd h (by simp)
  · exact absurd h (by simp)

theorem parseOffsetColon_head {l : List Char} {off : Int} {rest : List Char}
    (h : parseOffsetColon l = some (off, rest)) :
    ∃ sign tail, l = sign :: tail ∧ (sign = '+' ∨ sign = '-') := by
  unfold parseOffsetColon at h
  split at h
  · rename_i sign h1 h2 m1 m2 rest2
    split at h
    · rename_i hcond
      exact ⟨sign, _, rfl, hcond.1⟩
    · exact absurd h (by simp)
  · exact absurd h (by simp)

theorem parse3_to_flex (s : String) (t : GoTime) (h : parseSubSecOffset3 s = some t) :
    parseSubSecOffsetFlex s = some t := by
  unfold parseSubSecOffset3 at h
  unfold parseSubSecOffsetFlex
  split at h
  · exact absurd h (by simp)
  · rename_i p y mo da hh mi se l1 hy
    split at h
    · exact absurd h (by simp)
    · rename_i q ms l2 hf
      split at h
      · exact absurd h (by simp)
      · rename_i q2 off l3 ho
        obtain ⟨a, b, c, hsec, ha, hb, hc, hms⟩ := parseFrac3_inv hf
        obtain ⟨sign, tail, hl2, hsign⟩ := parseOffsetColon_head ho
        have hsd : sign.isDigit = false := by
          rcases hsign with h1 | h1 <;> subst h1 <;> decide
        subst hsec
        subst hl2
        have h9 : parseFrac9 ('.' :: a :: b :: c :: sign :: tail) =
            some (ms, sign :: tail) := by
          unfold parseFrac9
          simp only [ha, List.takeWhile_cons, List.dropWhile_cons, hb, hc, hsd,
            Bool.false_eq_true, if_true, if_false, ite_true, ite_false, hms]
          simp [fracMsOfDigits]
        rw [h9]
        show (match parseOffsetColon (sign :: tail) with
          | none => none
          | some (off, l3) =>
            if l3 = [] then some (GoTime.mk y mo da hh mi se ms off) else none) = some t
        rw [ho]
        show (if l3 = [] then some (GoTime.mk y mo da hh mi se ms off) else none) = some t
        exact h

/-- C3 (amended): the batch resolver treats a non-empty sub-second field
without any jitter (the result is independent of the jitter draw); a
field without a sign character is parsed with the offset-less layout and
interpreted as UTC (zone offset 0), and a field with a sign is parsed
with the offset-carrying layout, whose offset, as the concrete conjunct
shows, is honored in the result. -/
theorem batch_subsec_resolution (r : RawExif) (j : Nat)
    (h : r.SubSecDateTimeOriginal ≠ "") :
    resolveRecordBatch r j = resolveRecordBatch r 0 ∧
    (hasSign r.SubSecDateTimeOriginal = false →
      ∀ t, parseSubSecBare r.SubSecDateTimeOriginal = some t →
        resolveRecordBatch r j = ⟨t⟩ ∧ t.offsetMin = 0) ∧
    (hasSign r.SubSecDateTimeOriginal = true →
      ∀ t, parseSubSecOffsetFlex r.SubSecDateTimeOriginal = some t →
        resolveRecordBatch r j = ⟨t⟩) ∧
    parseSubSecOffsetFlex "2023:05:10 14:22:01.500-07:00" =
      some ⟨2023, 5, 10, 14, 22, 1, 500, -420⟩ := by
  refine ⟨?_, ?_, ?_, by decide⟩
  · unfold resolveRecordBatch
    rw [if_pos h]
    rw [if_pos h]
  · intro hs t ht
    refine ⟨?_, parseSubSecBare_offsetMin ht⟩
    unfold resolveRecordBatch
    rw [if_pos h, if_neg (by simp [hs]), ht]
  · intro hs t ht
    unfold resolveRecordBatch
    rw [if_pos h, if_pos (by simp [hs]), ht]

/-- Witness for the amended C3 theorem. -/
theorem batch_subsec_resolution_witness :
    ("2023:05:10 14:22:01.500-07:00" : String) ≠ "" ∧
    hasSign "2023:05:10 14:22:01.500-07:00" = true ∧
    resolveRecordBatch ⟨"", "2023:05:10 14:22:01.500-07:00", "", ""⟩ 7 =
      ⟨⟨2023, 5, 10, 14, 22, 1, 500, -420⟩⟩ :=
  ⟨by decide, by decide,
    (batch_subsec_resolution ⟨"", "2023:05:10 14:22:01.500-07:00", "", ""⟩ 7 (by decide)).2.2.1
      (by decide) ⟨2023, 5, 10, 14, 22, 1, 500, -420⟩ (by decide)⟩

/-- C10 (counterexample): the claim states `parseExif` and the head of
`parseExifs` agree modulo jitter on every payload with a non-empty
record list. On the record whose sub-second field `2023:05:10
14:22:01.500` carries no offset, `parseExif` fails the offset-requiring
parse and yields the zero time (independently of any jitter, since the
sub-second branch draws none) while `parseExifs` resolves the UTC
instant 2023-05-10 14:22:01.500. -/
theorem parse_single_vs_batch_cex :
    parseExif (some [⟨"", "2023:05:10 14:22:01.500", "", ""⟩]) 0 = .ok ⟨zeroGoTime⟩ ∧
    parseExifs (some [⟨"", "2023:05:10 14:22:01.500", "", ""⟩]) (fun _ => 0) =
      [⟨⟨2023, 5, 10, 14, 22, 1, 500, 0⟩⟩] ∧
    Exif.mk zeroGoTime ≠ ⟨⟨2023, 5, 10, 14, 22, 1, 500, 0⟩⟩ := by decide

/-- C10 (amended): the single-record resolver agrees with the head of the
batch resolver whenever the sub-second field is empty (given the same
jitter draw for the primary record) or carries a sign together with a
fraction the strict three-digit layout accepts; the head of `parseExifs`
is always the batch resolution of the first record. -/
theorem single_batch_head_agree (r : RawExif) (rest : List RawExif) (jitterAt : Nat → Nat) :
    (r.SubSecDateTimeOriginal = "" →
      parseExif (some (r :: rest)) (jitterAt 0) = .ok (resolveRecordBatch r (jitterAt 0))) ∧
    (∀ t, hasSign r.SubSecDateTimeOriginal = true →
      parseSubSecOffset3 r.SubSecDateTimeOriginal = some t →
      parseExif (some (r :: rest)) (jitterAt 0) = .ok ⟨t⟩ ∧
      resolveRecordBatch r (jitterAt 0) = ⟨t⟩) ∧
    (parseExifs (some (r :: rest)) jitterAt).head? =
      some (resolveRecordBatch r (jitterAt 0)) := by
  have h0 : parseExif (some (r :: rest)) (jitterAt 0) =
      .ok (parseExifRecord r (jitterAt 0)) := rfl
  refine ⟨?_, ?_, rfl⟩
  · intro hsub
    rw [h0]
    unfold parseExifRecord resolveRecordBatch
    simp [hsub]
  · intro t hs hp
    have hne : r.SubSecDateTimeOriginal ≠ "" := by
      intro he
      rw [he] at hp
      have hnone : parseSubSecOffset3 "" = none := by decide
      rw [hnone] at hp
      exact Option.noConfusion hp
    constructor
    · rw [h0]
      unfold parseExifRecord
      rw [if_pos hne, hp]
    · unfold resolveRecordBatch
      rw [if_pos hne, if_pos (by simp [hs]), parse3_to_flex _ _ hp]

/-- Witness for the amended C10 theorem: a fallback-only record and an
offset-carrying three-digit sub-second record. -/
theorem single_batch_head_agree_witness :
    hasSign "2023:05:10 14:22:01.500-07:00" = true ∧
    parseSubSecOffset3 "2023:05:10 14:22:01.500-07:00" =
      some ⟨2023, 5, 10, 14, 22, 1, 500, -420⟩ ∧
    parseExif (some [⟨"", "", "2023:05:10 14:22:01", "-07:00"⟩]) 3 =
      .ok (resolveRecordBatch ⟨"", "", "2023:05:10 14:22:01", "-07:00"⟩ 3) ∧
    parseExif (some [⟨"", "2023:05:10 14:22:01.500-07:00", "", ""⟩]) 3 =
      .ok ⟨⟨2023, 5, 10, 14, 22, 1, 500, -420⟩⟩ :=
  ⟨by decide, by decide,
    (single_batch_head_agree ⟨"", "", "2023:05:10 14:22:01", "-07:00"⟩ [] (fun _ => 3)).1 rfl,
    ((single_batch_head_agree ⟨"", "2023:05:10 14:22:01.500-07:00", "", ""⟩ [] (fun _ => 3)).2.1
      ⟨2023, 5, 10, 14, 22, 1, 500, -420⟩ (by decide) (by decide)).1⟩

end Exifutil
